import Mathlib

/-!
Shallow embedding of the two algorithmic cores of the Jira/GitLab MR
automation scripts (`mergeMR.js`, `postMergeJira.js`, `postMR.js`):

1. the unified-diff annotator (the line-numbering loop inside
   `getReviewSuggestions`), and
2. the two variants of the document compiler `buildJiraADFFromText`.

JavaScript string primitives (`startsWith`, `endsWith`, `trim`,
`substring`, `slice`, `split`, `replace(/\*\*/g, "")`) are modelled at the
character-list level, which matches their behavior on the inputs in play
(per-code-unit operations; `trim` strips ASCII whitespace).
-/

/-- ASCII whitespace test used to model JS `trim` and the regex class. -/
def wsChar (c : Char) : Bool :=
  c == ' ' || c == '\t' || c == '\n' || c == '\r'

/-- Strip whitespace from both ends of a character list (JS `String.prototype.trim`). -/
def trimChars (l : List Char) : List Char :=
  ((l.dropWhile wsChar).reverse.dropWhile wsChar).reverse

/-- JS `s.startsWith(p)`. -/
def jsStartsWith (s p : String) : Bool :=
  p.data.isPrefixOf s.data

/-- JS `s.endsWith(p)`. -/
def jsEndsWith (s p : String) : Bool :=
  p.data.isSuffixOf s.data

/-- JS `s.trim()`. -/
def jsTrim (s : String) : String :=
  ⟨trimChars s.data⟩

/-- JS `s.substring(n)` / `s.slice(n)` for a nonnegative index. -/
def jsDrop (s : String) (n : Nat) : String :=
  ⟨s.data.drop n⟩

/-- Split a character list at newline characters (JS `text.split("\n")`). -/
def splitNl : List Char → List (List Char)
  | [] => [[]]
  | c :: rest =>
    if c = '\n' then [] :: splitNl rest
    else
      match splitNl rest with
      | l :: ls => (c :: l) :: ls
      | [] => [[c]]

/-- JS `text.split("\n")` on strings. -/
def jsLines (text : String) : List String :=
  (splitNl text.data).map String.mk

/-- Numeric value of a digit run (JS `parseInt` on a digit string). -/
def digitsToNat (ds : List Char) : Nat :=
  ds.foldl (fun n c => n * 10 + (c.toNat - 48)) 0

/-- Attempt to match the regex `@@ -(\d+),\d+ \+(\d+),\d+ @@` at the head of
the character list, returning the two captured numbers. -/
def matchHunkAt (cs : List Char) : Option (Nat × Nat) :=
  match cs with
  | '@' :: '@' :: ' ' :: '-' :: r0 =>
    let ds1 := r0.takeWhile Char.isDigit
    let r1 := r0.dropWhile Char.isDigit
    if ds1.isEmpty then none else
    match r1 with
    | ',' :: r2 =>
      let ds2 := r2.takeWhile Char.isDigit
      let r3 := r2.dropWhile Char.isDigit
      if ds2.isEmpty then none else
      match r3 with
      | ' ' :: '+' :: r4 =>
        let ds3 := r4.takeWhile Char.isDigit
        let r5 := r4.dropWhile Char.isDigit
        if ds3.isEmpty then none else
        match r5 with
        | ',' :: r6 =>
          let ds4 := r6.takeWhile Char.isDigit
          let r7 := r6.dropWhile Char.isDigit
          if ds4.isEmpty then none else
          match r7 with
          | ' ' :: '@' :: '@' :: _ => some (digitsToNat ds1, digitsToNat ds3)
          | _ => none
        | _ => none
      | _ => none
    | _ => none
  | _ => none

/-- Leftmost match of the hunk-header regex anywhere in the line
(JS `regex.exec(line)` with an unanchored pattern). -/
def findHunk : List Char → Option (Nat × Nat)
  | [] => none
  | c :: rest =>
    match matchHunkAt (c :: rest) with
    | some r => some r
    | none => findHunk rest

/-- Scan state of the diff annotator: the two running counters and the
emitted lines, in order.  The counters are integers because a hunk header
`@@ -0,0 +1,3 @@` (new file) sets `oldLine` to `-1`. -/
structure AnnState where
  oldLine : Int
  newLine : Int
  out : List String
deriving Repr, DecidableEq

/-- One step of the line-numbering loop inside `getReviewSuggestions`
(`postMR.js` / the review script): branch on `@@` / `+` / `-` prefixes,
update the counters, and emit the annotated line. -/
def annStep (s : AnnState) (line : String) : AnnState :=
  if jsStartsWith line "@@" then
    match findHunk line.data with
    | some (a, b) =>
      { oldLine := (a : Int) - 1, newLine := (b : Int) - 1, out := s.out ++ [line] }
    | none => { s with out := s.out ++ [line] }
  else if jsStartsWith line "+" then
    { s with newLine := s.newLine + 1
           , out := s.out ++ ["+" ++ toString (s.newLine + 1) ++ " " ++ jsDrop line 1] }
  else if jsStartsWith line "-" then
    { s with oldLine := s.oldLine + 1
           , out := s.out ++ ["-" ++ toString (s.oldLine + 1) ++ " " ++ jsDrop line 1] }
  else
    { s with oldLine := s.oldLine + 1, newLine := s.newLine + 1
           , out := s.out ++ [" " ++ toString (s.newLine + 1) ++ " " ++ jsDrop line 1] }

/-- Initial annotator state: `oldLine = 0`, `newLine = 0`, nothing emitted. -/
def annInit : AnnState := ⟨0, 0, []⟩

/-- Annotate the lines of one file's diff, returning the emitted lines in order. -/
def annotateLines (lines : List String) : List String :=
  (lines.foldl annStep annInit).out

/-- `annotate(diffHunks)`: the diff-annotation core on a raw diff string
(each emitted line is terminated by a newline, as in the JS `content +=`
accumulation). -/
def annotate (diff : String) : String :=
  String.join ((annotateLines (jsLines diff)).map (· ++ "\n"))

/-- Reference annotation of a run of Context lines starting from new-file
counter `n` (used to characterise the annotator's output on Context-only
runs). -/
def annCtx (n : Int) : List String → List String
  | [] => []
  | l :: rest => (" " ++ toString (n + 1) ++ " " ++ jsDrop l 1) :: annCtx (n + 1) rest

/-- Block node of the ADF-like document tree (tagged union per the data
model: heading, paragraph with a single inline text and an optional strong
mark, bullet list of item texts, fenced code block). -/
inductive Node where
  | heading (level : Nat) (text : String)
  | paragraph (text : String) (bold : Bool)
  | bulletList (items : List String)
  | codeBlock (language : String) (text : String)
deriving Repr, DecidableEq

/-- The document returned by `buildJiraADFFromText`
(`{ type: "doc", version: 1, content }`). -/
structure Doc where
  children : List Node
deriving Repr, DecidableEq

/-- Remove every occurrence of `**`, scanning left to right
(JS `trimmed.replace(/\*\*/g, "")`). -/
def removeStars : List Char → List Char
  | '*' :: '*' :: rest => removeStars rest
  | c :: rest => c :: removeStars rest
  | [] => []

/-- `replace(/\*\*/g, "")` on strings. -/
def removeStarStar (s : String) : String :=
  ⟨removeStars s.data⟩

namespace MergeMR

/-- Test of `/^\*\*(.+)\*\*$/` on a (trimmed) line: it matches exactly when
the line starts and ends with `**` and is long enough that the two
delimiters do not overlap and enclose at least one character. -/
def isBoldLine (t : String) : Bool :=
  jsStartsWith t "**" && jsEndsWith t "**" && decide (5 ≤ t.data.length)

/-- `trimmed.replace(/^###\s*/, "")` for a line known to start with `###`:
drop the three `#` and any following whitespace. -/
def stripHeading3 (t : String) : String :=
  ⟨(t.data.drop 3).dropWhile wsChar⟩

/-- Scan state of `buildJiraADFFromText` in `mergeMR.js`: emitted nodes,
the currently open bullet list (its item texts), and the code-block mode
with its buffer and language. -/
structure MState where
  content : List Node
  currentList : Option (List String)
  inCode : Bool
  codeText : String
  codeLang : String
deriving Repr, DecidableEq

/-- Closing the open bullet list: `if (currentList) content.push(currentList)`. -/
def flushList : Option (List String) → List Node
  | some items => [Node.bulletList items]
  | none => []

/-- The node emitted for a non-fence, non-code, non-bullet line (the
heading / bold-or-plain paragraph / empty-paragraph cases), as a function
of the trimmed line. -/
def plainNode (trimmed : String) : Node :=
  if jsStartsWith trimmed "###" then .heading 3 (stripHeading3 trimmed)
  else if trimmed ≠ "" then .paragraph (removeStarStar trimmed) (isBoldLine trimmed)
  else .paragraph "" false

/-- One step of the line loop of `buildJiraADFFromText` (`mergeMR.js`):
fence toggling first, then verbatim code capture, then the `•` bullet
case, otherwise close the open list and emit a heading/paragraph node. -/
def mstep (s : MState) (line : String) : MState :=
  let trimmed := jsTrim line
  if jsStartsWith trimmed "```" then
    if !s.inCode then
      { s with inCode := true, codeText := ""
             , codeLang := if (jsDrop trimmed 3).data.isEmpty then "text" else jsDrop trimmed 3 }
    else
      { s with inCode := false
             , content := s.content ++ [.codeBlock s.codeLang s.codeText] }
  else if s.inCode then
    { s with codeText := s.codeText ++ line ++ "\n" }
  else if jsStartsWith trimmed "•" then
    { s with currentList := some ((s.currentList.getD []) ++ [jsTrim (jsDrop trimmed 1)]) }
  else
    { s with content := s.content ++ flushList s.currentList ++ [plainNode trimmed]
           , currentList := none }

/-- Initial scan state. -/
def minit : MState := ⟨[], none, false, "", "text"⟩

/-- `buildJiraADFFromText` (`mergeMR.js` variant) on a pre-split line list:
fold the steps, then append a still-open list as the final child. -/
def compileLines (lines : List String) : Doc :=
  ⟨(lines.foldl mstep minit).content ++
    flushList (lines.foldl mstep minit).currentList⟩

/-- `buildJiraADFFromText(text)` from `mergeMR.js`: the `•`-bullet,
blank-line-emits-empty-paragraph variant of the document compiler. -/
def buildJiraADFFromText (text : String) : Doc :=
  compileLines (jsLines text)

end MergeMR

namespace PostMergeJira

/-- `line.replace(/^(\*|-)\s+/, "")`: if the raw line starts with `*` or
`-` followed by at least one whitespace character, drop the marker and the
whitespace run; otherwise the line is unchanged. -/
def stripBullet (line : String) : String :=
  match line.data with
  | c :: d :: rest =>
    if (c == '*' || c == '-') && wsChar d then ⟨(d :: rest).dropWhile wsChar⟩
    else line
  | _ => line

/-- One step of the line loop of `buildJiraADFFromText`
(`postMergeJira.js`): blank lines are skipped; `## ` / `# ` headings (on
the raw line); `* ` / `- ` bullets (detected on the trimmed line) append
to the last node when it is a bullet list and open a new one otherwise;
anything else becomes a paragraph carrying the raw line. -/
def pstep (content : List Node) (line : String) : List Node :=
  if jsTrim line = "" then content
  else if jsStartsWith line "## " then content ++ [.heading 2 (jsDrop line 3)]
  else if jsStartsWith line "# " then content ++ [.heading 1 (jsDrop line 2)]
  else if jsStartsWith (jsTrim line) "* " || jsStartsWith (jsTrim line) "- " then
    match content.getLast? with
    | some (.bulletList items) => content.dropLast ++ [.bulletList (items ++ [stripBullet line])]
    | _ => content ++ [.bulletList [stripBullet line]]
  else content ++ [.paragraph line false]

/-- `buildJiraADFFromText(text)` from `postMergeJira.js`: the `*`/`-`
flat-bullet, blank-line-skipping variant of the document compiler. -/
def buildJiraADFFromText (text : String) : Doc :=
  ⟨(jsLines text).foldl pstep []⟩

end PostMergeJira

/-- If a string starts with the one-or-more-character literal `p`, and `q`
starts with a different first character, the string does not start with `q`. -/
lemma jsStartsWith_false_of_ne (t p q : String) (c d : Char) (tp tq : List Char)
    (hp : p.data = c :: tp) (hq : q.data = d :: tq) (hne : d ≠ c)
    (h : jsStartsWith t p = true) : jsStartsWith t q = false := by
  unfold jsStartsWith at h ⊢
  rw [hp] at h
  rw [hq]
  cases hd : t.data with
  | nil => rw [hd] at h; simp at h
  | cons e rest =>
    rw [hd] at h
    simp only [List.isPrefixOf_iff_prefix, List.cons_prefix_cons] at h
    simp only [Bool.eq_false_iff, ne_eq, List.isPrefixOf_iff_prefix, List.cons_prefix_cons]
    intro hcon
    exact hne (hcon.1.trans h.1.symm)

/-- A Removed diff line (prefix `-`) is neither a hunk-header candidate nor
an Added line. -/
lemma removed_line_excl (l : String) (h : jsStartsWith l "-" = true) :
    jsStartsWith l "@@" = false ∧ jsStartsWith l "+" = false :=
  ⟨jsStartsWith_false_of_ne l "-" "@@" '-' '@' [] ['@'] rfl rfl (by decide) h,
   jsStartsWith_false_of_ne l "-" "+" '-' '+' [] [] rfl rfl (by decide) h⟩

/-- An Added diff line (prefix `+`) is neither a hunk-header candidate nor
a Removed line. -/
lemma added_line_excl (l : String) (h : jsStartsWith l "+" = true) :
    jsStartsWith l "@@" = false ∧ jsStartsWith l "-" = false :=
  ⟨jsStartsWith_false_of_ne l "+" "@@" '+' '@' [] ['@'] rfl rfl (by decide) h,
   jsStartsWith_false_of_ne l "+" "-" '+' '-' [] [] rfl rfl (by decide) h⟩

/-- A `•` bullet line is not a code-fence line. -/
lemma bullet_not_fence (t : String) (h : jsStartsWith t "•" = true) :
    jsStartsWith t "```" = false :=
  jsStartsWith_false_of_ne t "•" "```" '•' '`' [] ['`', '`'] rfl rfl (by decide) h

/-- The Context branch of the annotator step: both counters advance by 1
and the emitted line is the space sign, the new counter, and the line's
text with its first character removed. -/
lemma annStep_context (s : AnnState) (line : String)
    (h1 : jsStartsWith line "@@" = false) (h2 : jsStartsWith line "+" = false)
    (h3 : jsStartsWith line "-" = false) :
    annStep s line =
      ⟨s.oldLine + 1, s.newLine + 1,
       s.out ++ [" " ++ toString (s.newLine + 1) ++ " " ++ jsDrop line 1]⟩ := by
  simp [annStep, h1, h2, h3]

/-- The Added branch of the annotator step. -/
lemma annStep_added (s : AnnState) (line : String)
    (h1 : jsStartsWith line "@@" = false) (h2 : jsStartsWith line "+" = true) :
    annStep s line =
      ⟨s.oldLine, s.newLine + 1,
       s.out ++ ["+" ++ toString (s.newLine + 1) ++ " " ++ jsDrop line 1]⟩ := by
  simp [annStep, h1, h2]

/-- The Removed branch of the annotator step. -/
lemma annStep_removed (s : AnnState) (line : String)
    (h1 : jsStartsWith line "@@" = false) (h2 : jsStartsWith line "+" = false)
    (h3 : jsStartsWith line "-" = true) :
    annStep s line =
      ⟨s.oldLine + 1, s.newLine,
       s.out ++ ["-" ++ toString (s.oldLine + 1) ++ " " ++ jsDrop line 1]⟩ := by
  simp [annStep, h1, h2, h3]

/-- Folding the annotator over Removed-only lines leaves the new-file
counter unchanged. -/
lemma foldl_removed_newLine (mid : List String) :
    ∀ s : AnnState, (∀ l ∈ mid, jsStartsWith l "-" = true) →
      (mid.foldl annStep s).newLine = s.newLine := by
  induction mid with
  | nil => intro s _; rfl
  | cons l rest ih =>
    intro s h
    have hl := h l (by simp)
    obtain ⟨h1, h2⟩ := removed_line_excl l hl
    rw [List.foldl_cons, ih _ (fun x hx => h x (by simp [hx]))]
    simp [annStep, h1, h2, hl]

/-- Folding the annotator over Added-only lines leaves the old-file
counter unchanged. -/
lemma foldl_added_oldLine (mid : List String) :
    ∀ s : AnnState, (∀ l ∈ mid, jsStartsWith l "+" = true) →
      (mid.foldl annStep s).oldLine = s.oldLine := by
  induction mid with
  | nil => intro s _; rfl
  | cons l rest ih =>
    intro s h
    have hl := h l (by simp)
    obtain ⟨h1, h2⟩ := added_line_excl l hl
    rw [List.foldl_cons, ih _ (fun x hx => h x (by simp [hx]))]
    simp [annStep, h1, h2, hl]

/-- Folding the annotator over Context-only lines appends exactly their
`annCtx` annotations to the output. -/
lemma foldl_context_out (ctx : List String) :
    ∀ s : AnnState,
    (∀ l ∈ ctx, jsStartsWith l "@@" = false ∧ jsStartsWith l "+" = false ∧
        jsStartsWith l "-" = false) →
    (ctx.foldl annStep s).out = s.out ++ annCtx s.newLine ctx := by
  induction ctx with
  | nil => intro s _; simp [annCtx]
  | cons l rest ih =>
    intro s h
    obtain ⟨h1, h2, h3⟩ := h l (by simp)
    rw [List.foldl_cons, annStep_context s l h1 h2 h3,
        ih _ (fun x hx => h x (by simp [hx]))]
    simp [annCtx]

/-- Folding the annotator over Context-only lines advances both counters by
exactly the number of lines. -/
lemma foldl_context_counters (ctx : List String) :
    ∀ s : AnnState,
    (∀ l ∈ ctx, jsStartsWith l "@@" = false ∧ jsStartsWith l "+" = false ∧
        jsStartsWith l "-" = false) →
    (ctx.foldl annStep s).oldLine = s.oldLine + ctx.length ∧
    (ctx.foldl annStep s).newLine = s.newLine + ctx.length := by
  induction ctx with
  | nil => intro s _; simp
  | cons l rest ih =>
    intro s h
    obtain ⟨h1, h2, h3⟩ := h l (by simp)
    rw [List.foldl_cons, annStep_context s l h1 h2 h3]
    obtain ⟨ho, hn⟩ := ih _ (fun x hx => h x (by simp [hx]))
    rw [ho, hn]
    refine ⟨?_, ?_⟩ <;> (simp only [List.length_cons]; push_cast; ring)

/-- Element `k` of an `annCtx` run carries new-file number `n + k + 1`. -/
lemma annCtx_get (ctx : List String) :
    ∀ (n : Int) (k : Nat), k < ctx.length →
      (annCtx n ctx).get? k =
        some (" " ++ toString (n + k + 1) ++ " " ++ jsDrop (ctx.getD k "") 1) := by
  induction ctx with
  | nil => intro n k hk; simp at hk
  | cons l rest ih =>
    intro n k hk
    cases k with
    | zero => simp [annCtx]
    | succ k =>
      rw [annCtx, List.get?_cons_succ, ih (n + 1) k (by simpa using hk),
          List.getD_cons_succ]
      have harith : n + 1 + (k : Int) + 1 = n + ((k : Nat) + 1 : Nat) + 1 := by
        push_cast
        ring
      rw [harith]

/-- C3: for every Context diff line (first character neither `+` nor `-`
and not a `@@` header candidate) the annotator advances both counters and
emits ` {newLine} {content}` — but `content` is the line's text with its
FIRST character removed (`line.substring(1)` is applied whether or not a
space prefix is present), so a prefix-free Context line does not keep its
full text. -/
theorem c3_context_emits_first_char_stripped (s : AnnState) (line : String)
    (h1 : jsStartsWith line "@@" = false) (h2 : jsStartsWith line "+" = false)
    (h3 : jsStartsWith line "-" = false) :
    annStep s line =
      ⟨s.oldLine + 1, s.newLine + 1,
       s.out ++ [" " ++ toString (s.newLine + 1) ++ " " ++ jsDrop line 1]⟩ :=
  annStep_context s line h1 h2 h3

/-- C3 witness: the amended step fact evaluated at a concrete state and a
prefix-free context line. -/
theorem c3_witness :
    annStep ⟨3, 8, []⟩ "hello" = ⟨4, 9, [" 9 ello"]⟩ := by
  rw [c3_context_emits_first_char_stripped ⟨3, 8, []⟩ "hello" (by decide) (by decide) (by decide)]
  decide

/-- C3 counterexample: a Context line with no prefix does NOT contribute
its full text; its first character is dropped (`"abc"` is emitted as
`" 1 bc"`, not `" 1 abc"`). -/
theorem c3_counterexample :
    annotateLines ["@@ -1,1 +1,1 @@", "abc"] = ["@@ -1,1 +1,1 @@", " 1 bc"] ∧
    annotateLines ["@@ -1,1 +1,1 @@", "abc"] ≠ ["@@ -1,1 +1,1 @@", " 1 abc"] := by
  decide

/-- C8: the annotator is total, and a line starting with `@@` on which the
hunk-header pattern `@@ -a,m +b,n @@` finds no match is emitted unchanged
while both counters keep their prior values. -/
theorem c8_malformed_header_passthrough (s : AnnState) (line : String)
    (hat : jsStartsWith line "@@" = true) (hno : findHunk line.data = none) :
    annStep s line = { s with out := s.out ++ [line] } := by
  simp [annStep, hat, hno]

/-- C8 witness: a malformed header (`@@ malformed`) passes through
unchanged at a concrete annotator state. -/
theorem c8_witness :
    annStep ⟨7, 9, ["p"]⟩ "@@ malformed" = ⟨7, 9, ["p", "@@ malformed"]⟩ := by
  rw [c8_malformed_header_passthrough ⟨7, 9, ["p"]⟩ "@@ malformed" (by decide) (by decide)]
  decide

/-- C1 (amended): a hunk header line on which the pattern
`@@ -a,m +b,n @@` matches sets the counters to `a-1` / `b-1` and is
emitted unchanged; consequently the first Added line after the header is
annotated `+b` provided only Removed lines lie in between (each Context
line in between would advance the new counter), and symmetrically the
first Removed line is annotated `-a` provided only Added lines lie in
between. -/
theorem c1_header_rebase (s : AnnState) (hline nxt : String) (a b : Nat)
    (mid : List String)
    (hhd : jsStartsWith hline "@@" = true)
    (hfind : findHunk hline.data = some (a, b)) :
    annStep s hline = ⟨(a : Int) - 1, (b : Int) - 1, s.out ++ [hline]⟩
    ∧ ((∀ l ∈ mid, jsStartsWith l "-" = true) → jsStartsWith nxt "+" = true →
        ((hline :: (mid ++ [nxt])).foldl annStep s).out =
          ((hline :: mid).foldl annStep s).out ++
            ["+" ++ toString (b : Int) ++ " " ++ jsDrop nxt 1])
    ∧ ((∀ l ∈ mid, jsStartsWith l "+" = true) → jsStartsWith nxt "-" = true →
        ((hline :: (mid ++ [nxt])).foldl annStep s).out =
          ((hline :: mid).foldl annStep s).out ++
            ["-" ++ toString (a : Int) ++ " " ++ jsDrop nxt 1]) := by
  have hstep : annStep s hline = ⟨(a : Int) - 1, (b : Int) - 1, s.out ++ [hline]⟩ := by
    simp [annStep, hhd, hfind]
  refine ⟨hstep, ?_, ?_⟩
  · intro hmid hnxt
    obtain ⟨hq1, hq2⟩ := added_line_excl nxt hnxt
    have hnew : (mid.foldl annStep (annStep s hline)).newLine = (b : Int) - 1 := by
      rw [foldl_removed_newLine mid _ hmid, hstep]
    rw [List.foldl_cons, List.foldl_cons, List.foldl_append, List.foldl_cons,
        List.foldl_nil, annStep_added _ nxt hq1 hnxt, hnew]
    have harith : (b : Int) - 1 + 1 = (b : Int) := by ring
    rw [harith]
  · intro hmid hnxt
    obtain ⟨hq1, hq2⟩ := removed_line_excl nxt hnxt
    have hold : (mid.foldl annStep (annStep s hline)).oldLine = (a : Int) - 1 := by
      rw [foldl_added_oldLine mid _ hmid, hstep]
    rw [List.foldl_cons, List.foldl_cons, List.foldl_append, List.foldl_cons,
        List.foldl_nil, annStep_removed _ nxt hq1 hq2 hnxt, hold]
    have harith : (a : Int) - 1 + 1 = (a : Int) := by ring
    rw [harith]

/-- C1 witness: for the header `@@ -3,2 +7,2 @@`, the counters are set to
2 and 6, an Added line following one Removed line is annotated `+7`, and a
Removed line following one Added line is annotated `-3`. -/
theorem c1_witness :
    annStep annInit "@@ -3,2 +7,2 @@" = ⟨2, 6, ["@@ -3,2 +7,2 @@"]⟩ ∧
    (("@@ -3,2 +7,2 @@" :: (["-r"] ++ ["+n"])).foldl annStep annInit).out =
      (("@@ -3,2 +7,2 @@" :: ["-r"]).foldl annStep annInit).out ++ ["+7 n"] ∧
    (("@@ -3,2 +7,2 @@" :: (["+p"] ++ ["-q"])).foldl annStep annInit).out =
      (("@@ -3,2 +7,2 @@" :: ["+p"]).foldl annStep annInit).out ++ ["-3 q"] := by
  obtain ⟨h1, h2, -⟩ :=
    c1_header_rebase annInit "@@ -3,2 +7,2 @@" "+n" 3 7 ["-r"] (by decide) (by decide)
  obtain ⟨-, -, h3⟩ :=
    c1_header_rebase annInit "@@ -3,2 +7,2 @@" "-q" 3 7 ["+p"] (by decide) (by decide)
  refine ⟨?_, ?_, ?_⟩
  · rw [h1]; decide
  · rw [h2 (by decide) (by decide)]; decide
  · rw [h3 (by decide) (by decide)]; decide

/-- C1 counterexample: after the header `@@ -1,2 +1,2 @@` (so `b = 1`), a
Context line precedes the first Added line, which is therefore annotated
`+2`, not `+1` as the claim states. -/
theorem c1_counterexample :
    annotateLines ["@@ -1,2 +1,2 @@", " c", "+x"] =
      ["@@ -1,2 +1,2 @@", " 1 c", "+2 x"] ∧
    (annotateLines ["@@ -1,2 +1,2 @@", " c", "+x"]).get? 2 ≠ some "+1 x" := by
  decide

/-- C2: after the header `@@ -5,3 +5,3 @@`, in a diff of Context lines
only, the line at position `k` of the run (0-based) is annotated with
new-file number `5 + k`, i.e. the k-th context line (1-based) carries
`5 + k - 1`; and the whole run advances both counters by exactly one per
line. -/
theorem c2_context_numbering (ctx : List String)
    (hctx : ∀ l ∈ ctx, jsStartsWith l "@@" = false ∧ jsStartsWith l "+" = false ∧
        jsStartsWith l "-" = false)
    (k : Nat) (hk : k < ctx.length) :
    (annotateLines ("@@ -5,3 +5,3 @@" :: ctx)).get? (k + 1) =
      some (" " ++ toString ((5 : Int) + k) ++ " " ++ jsDrop (ctx.getD k "") 1)
    ∧ (("@@ -5,3 +5,3 @@" :: ctx).foldl annStep annInit).oldLine = 4 + ctx.length
    ∧ (("@@ -5,3 +5,3 @@" :: ctx).foldl annStep annInit).newLine = 4 + ctx.length := by
  have hhdr : annStep annInit "@@ -5,3 +5,3 @@" = ⟨4, 4, ["@@ -5,3 +5,3 @@"]⟩ := by
    decide
  refine ⟨?_, ?_, ?_⟩
  · unfold annotateLines
    rw [List.foldl_cons, hhdr, foldl_context_out ctx _ hctx]
    show ((["@@ -5,3 +5,3 @@"] ++ annCtx 4 ctx).get? (k + 1)) = _
    rw [List.singleton_append, List.get?_cons_succ, annCtx_get ctx 4 k hk]
    have harith : (4 : Int) + k + 1 = 5 + k := by ring
    rw [harith]
  · rw [List.foldl_cons, hhdr, (foldl_context_counters ctx _ hctx).1]
  · rw [List.foldl_cons, hhdr, (foldl_context_counters ctx _ hctx).2]

/-- C2 witness: two context lines after `@@ -5,3 +5,3 @@`; the second
(k = 1) is annotated ` 6 v` and both counters end at 6. -/
theorem c2_witness :
    (annotateLines ("@@ -5,3 +5,3 @@" :: [" u", " v"])).get? 2 = some " 6 v" ∧
    (("@@ -5,3 +5,3 @@" :: [" u", " v"]).foldl annStep annInit).oldLine = 6 ∧
    (("@@ -5,3 +5,3 @@" :: [" u", " v"]).foldl annStep annInit).newLine = 6 := by
  obtain ⟨h1, h2, h3⟩ := c2_context_numbering [" u", " v"] (by decide) 1 (by decide)
  refine ⟨?_, ?_, ?_⟩
  · rw [h1]; decide
  · rw [h2]; decide
  · rw [h3]; decide

/-- C4 counterexample: on `"* Top\n** Nested\n* Back"` the `*`-dialect
compiler does NOT emit a single bullet list: `** Nested` is not recognized
as a bullet (its trimmed form starts with `**`, not `* `), becomes a
paragraph, and splits the list in two. -/
theorem c4_counterexample :
    PostMergeJira.buildJiraADFFromText "* Top\n** Nested\n* Back" =
      ⟨[Node.bulletList ["Top"], Node.paragraph "** Nested" false,
        Node.bulletList ["Back"]]⟩ ∧
    (PostMergeJira.buildJiraADFFromText "* Top\n** Nested\n* Back").children.countP
        (fun n => match n with | Node.bulletList _ => true | _ => false) ≠ 1 := by
  decide

/-- C4 (amended): neither compiler has a depth/indent mechanism. In the
`*`/`-` dialect, `* Top` and `* Back` each form flat bullet lists while
`** Nested` falls through to a paragraph carrying its raw text, yielding
list–paragraph–list; in the `•` dialect all three lines are plain
paragraphs (with `**` occurrences stripped). -/
theorem c4_flat_bullet_dialects :
    PostMergeJira.buildJiraADFFromText "* Top\n** Nested\n* Back" =
      ⟨[Node.bulletList ["Top"], Node.paragraph "** Nested" false,
        Node.bulletList ["Back"]]⟩ ∧
    MergeMR.buildJiraADFFromText "* Top\n** Nested\n* Back" =
      ⟨[Node.paragraph "* Top" false, Node.paragraph " Nested" false,
        Node.paragraph "* Back" false]⟩ := by
  decide

/-- C5 counterexample: the input `"### Title\n**Bold line**\n\nPlain text\n"`
(with trailing newline) produces FIVE children, not four: the trailing
newline yields a final empty line, which this variant emits as an empty
paragraph. -/
theorem c5_counterexample :
    (MergeMR.buildJiraADFFromText
        "### Title\n**Bold line**\n\nPlain text\n").children.length = 5 ∧
    (MergeMR.buildJiraADFFromText
        "### Title\n**Bold line**\n\nPlain text\n").children.length ≠ 4 := by
  decide

/-- C5 (amended): the input compiles to five children in order —
Heading(3, "Title"), bold paragraph "Bold line", empty paragraph, plain
paragraph "Plain text", and a final empty paragraph from the trailing
newline. -/
theorem c5_trailing_blank_paragraph :
    MergeMR.buildJiraADFFromText "### Title\n**Bold line**\n\nPlain text\n" =
      ⟨[Node.heading 3 "Title", Node.paragraph "Bold line" true,
        Node.paragraph "" false, Node.paragraph "Plain text" false,
        Node.paragraph "" false]⟩ := by
  decide

/-- C6: the fenced block ```` ```js / const x = 1; / ``` ```` compiles to
exactly one code block with language `js` and text `"const x = 1;\n"`; and
in code-block mode every non-fence line — blank, bullet-like, heading-like
or bold-like — is appended verbatim to the buffer and emits no node. -/
theorem c6_code_block_verbatim (s : MergeMR.MState) (line : String)
    (hs : s.inCode = true) (hl : jsStartsWith (jsTrim line) "```" = false) :
    MergeMR.buildJiraADFFromText "```js\nconst x = 1;\n```" =
      ⟨[Node.codeBlock "js" "const x = 1;\n"]⟩ ∧
    MergeMR.mstep s line = { s with codeText := s.codeText ++ line ++ "\n" } := by
  constructor
  · decide
  · simp [MergeMR.mstep, hl, hs]

/-- C6 witness: the fenced-block compilation, and the verbatim capture of
a heading-like line while in code mode. -/
theorem c6_witness :
    MergeMR.buildJiraADFFromText "```js\nconst x = 1;\n```" =
      ⟨[Node.codeBlock "js" "const x = 1;\n"]⟩ ∧
    MergeMR.mstep ⟨[], none, true, "", "js"⟩ "### not a heading" =
      ⟨[], none, true, "### not a heading\n", "js"⟩ := by
  obtain ⟨w1, w2⟩ :=
    c6_code_block_verbatim ⟨[], none, true, "", "js"⟩ "### not a heading" rfl (by decide)
  exact ⟨w1, by rw [w2]; decide⟩

/-- C7 counterexample: a code fence does NOT close the currently open
bullet list: on `"• a\n```\nx\n```\n• b"` the code block is emitted while
the list stays open, and the two non-consecutive bullet lines merge into
one list that is flushed after the code block — not list, code, list as
the claim requires. -/
theorem c7_counterexample :
    MergeMR.buildJiraADFFromText "• a\n```\nx\n```\n• b" =
      ⟨[Node.codeBlock "text" "x\n", Node.bulletList ["a", "b"]]⟩ ∧
    MergeMR.buildJiraADFFromText "• a\n```\nx\n```\n• b" ≠
      ⟨[Node.bulletList ["a"], Node.codeBlock "text" "x\n",
        Node.bulletList ["b"]]⟩ := by
  decide

/-- C7 (amended): bullet lines outside code mode append to the open list
and emit nothing (so consecutive bullets merge); a non-bullet, non-fence
line outside code mode closes the open list before emitting its node;
fence lines and code-mode lines leave the open list untouched (so a code
block can be emitted while a list is open); at end of input a still-open
list is appended as the final child. -/
theorem c7_list_state_machine :
    (∀ (s : MergeMR.MState) (line : String), s.inCode = false →
        jsStartsWith (jsTrim line) "•" = true →
        MergeMR.mstep s line =
          { s with
              currentList :=
                some ((s.currentList.getD []) ++ [jsTrim (jsDrop (jsTrim line) 1)]) })
    ∧ (∀ (s : MergeMR.MState) (line : String), s.inCode = false →
        jsStartsWith (jsTrim line) "```" = false →
        jsStartsWith (jsTrim line) "•" = false →
        MergeMR.mstep s line =
          { s with content := s.content ++ MergeMR.flushList s.currentList ++
                     [MergeMR.plainNode (jsTrim line)]
                 , currentList := none })
    ∧ (∀ (s : MergeMR.MState) (line : String),
        jsStartsWith (jsTrim line) "```" = true ∨ s.inCode = true →
        (MergeMR.mstep s line).currentList = s.currentList)
    ∧ (∀ lines : List String,
        (MergeMR.compileLines lines).children =
          (lines.foldl MergeMR.mstep MergeMR.minit).content ++
            MergeMR.flushList ((lines.foldl MergeMR.mstep MergeMR.minit).currentList)) := by
  refine ⟨?_, ?_, ?_, fun lines => rfl⟩
  · intro s line hs hb
    have hf := bullet_not_fence _ hb
    simp [MergeMR.mstep, hf, hs, hb]
  · intro s line hs hf hb
    simp [MergeMR.mstep, hf, hs, hb]
  · intro s line h
    rcases h with hf | hc
    · cases hic : s.inCode
      · simp [MergeMR.mstep, hf, hic]
      · simp [MergeMR.mstep, hf, hic]
    · cases hf : jsStartsWith (jsTrim line) "```"
      · simp [MergeMR.mstep, hf, hc]
      · simp [MergeMR.mstep, hf, hc]

/-- C7 witness: the four state-machine facts evaluated at concrete states
with an open list `["a"]`. -/
theorem c7_witness :
    MergeMR.mstep ⟨[], some ["a"], false, "", "text"⟩ "• b" =
      ⟨[], some ["a", "b"], false, "", "text"⟩ ∧
    MergeMR.mstep ⟨[], some ["a"], false, "", "text"⟩ "hi" =
      ⟨[Node.bulletList ["a"], Node.paragraph "hi" false], none, false, "", "text"⟩ ∧
    (MergeMR.mstep ⟨[], some ["a"], false, "", "text"⟩ "```").currentList = some ["a"] ∧
    (MergeMR.compileLines ["• a"]).children =
      ((["• a"].foldl MergeMR.mstep MergeMR.minit).content ++
        MergeMR.flushList ((["• a"].foldl MergeMR.mstep MergeMR.minit).currentList)) := by
  obtain ⟨w1, w2, w3, w4⟩ := c7_list_state_machine
  refine ⟨?_, ?_, ?_, w4 ["• a"]⟩
  · rw [w1 _ "• b" rfl (by decide)]; decide
  · rw [w2 _ "hi" rfl (by decide) (by decide)]; decide
  · rw [w3 _ "```" (Or.inl (by decide))]

/-- C9: both compiler variants are total over arbitrary line lists, and a
line matching no fence, heading, bullet, blank or bold rule falls through
to the plain-paragraph case rather than failing: the `*`-dialect emits a
paragraph carrying the raw line, and the `•`-dialect closes any open list
and emits a non-bold paragraph with nothing but the `**` occurrences
stripped from the trimmed line. -/
theorem c9_unclassified_line_paragraph (content : List Node) (line : String)
    (s : MergeMR.MState) :
    (jsTrim line ≠ "" → jsStartsWith line "## " = false →
      jsStartsWith line "# " = false → jsStartsWith (jsTrim line) "* " = false →
      jsStartsWith (jsTrim line) "- " = false →
      PostMergeJira.pstep content line = content ++ [Node.paragraph line false])
    ∧ (s.inCode = false → jsStartsWith (jsTrim line) "```" = false →
        jsStartsWith (jsTrim line) "•" = false →
        jsStartsWith (jsTrim line) "###" = false → jsTrim line ≠ "" →
        MergeMR.isBoldLine (jsTrim line) = false →
        MergeMR.mstep s line =
          { s with content := s.content ++ MergeMR.flushList s.currentList ++
                     [Node.paragraph (removeStarStar (jsTrim line)) false]
                 , currentList := none }) := by
  constructor
  · intro h0 h1 h2 h3 h4
    simp [PostMergeJira.pstep, h0, h1, h2, h3, h4]
  · intro hs hf hb hh h0 hbold
    simp [MergeMR.mstep, MergeMR.plainNode, hs, hf, hb, hh, h0, hbold]

/-- C9 witness: an unclassifiable line becomes a plain paragraph in both
compiler variants. -/
theorem c9_witness :
    PostMergeJira.pstep [] "plain words" = [Node.paragraph "plain words" false] ∧
    MergeMR.mstep MergeMR.minit "plain words" =
      ⟨[Node.paragraph "plain words" false], none, false, "", "text"⟩ := by
  obtain ⟨w1, w2⟩ := c9_unclassified_line_paragraph [] "plain words" MergeMR.minit
  constructor
  · rw [w1 (by decide) (by decide) (by decide) (by decide) (by decide)]; decide
  · rw [w2 rfl (by decide) (by decide) (by decide) (by decide) (by decide)]; decide

/-- Lines processed in code-block mode that do not close the fence change
neither the emitted nodes nor the open bullet list. -/
lemma foldl_code_mode_keeps (cs : List String) :
    ∀ s : MergeMR.MState, s.inCode = true →
      (∀ c ∈ cs, jsStartsWith (jsTrim c) "```" = false) →
      (cs.foldl MergeMR.mstep s).content = s.content ∧
      (cs.foldl MergeMR.mstep s).currentList = s.currentList := by
  induction cs with
  | nil => intro s _ _; exact ⟨rfl, rfl⟩
  | cons c rest ih =>
    intro s hs hall
    have hc := hall c (by simp)
    have hstep : MergeMR.mstep s c = { s with codeText := s.codeText ++ c ++ "\n" } := by
      simp [MergeMR.mstep, hc, hs]
    rw [List.foldl_cons, hstep]
    exact ih _ hs (fun x hx => hall x (by simp [hx]))

/-- C10: if the `•`-dialect compiler reaches a fence opener outside code
mode and the remaining input never closes the fence, the buffered code
lines are discarded entirely: the result equals the compilation of the
input before the opener (so no code-block node is emitted for them and
their text appears in no node; only an open bullet list is flushed at end
of input). -/
theorem c10_unclosed_fence_discarded (pre : List String) (f : String)
    (cs : List String)
    (hpre : (pre.foldl MergeMR.mstep MergeMR.minit).inCode = false)
    (hf : jsStartsWith (jsTrim f) "```" = true)
    (hcs : ∀ c ∈ cs, jsStartsWith (jsTrim c) "```" = false) :
    MergeMR.compileLines (pre ++ f :: cs) = MergeMR.compileLines pre := by
  unfold MergeMR.compileLines
  rw [List.foldl_append, List.foldl_cons]
  have hstep : MergeMR.mstep (pre.foldl MergeMR.mstep MergeMR.minit) f =
      { pre.foldl MergeMR.mstep MergeMR.minit with
          inCode := true, codeText := ""
        , codeLang := if (jsDrop (jsTrim f) 3).data.isEmpty then "text"
                      else jsDrop (jsTrim f) 3 } := by
    simp [MergeMR.mstep, hf, hpre]
  rw [hstep]
  obtain ⟨h1, h2⟩ := foldl_code_mode_keeps cs
    ({ pre.foldl MergeMR.mstep MergeMR.minit with
        inCode := true, codeText := ""
      , codeLang := if (jsDrop (jsTrim f) 3).data.isEmpty then "text"
                    else jsDrop (jsTrim f) 3 })
    rfl hcs
  rw [h1, h2]

/-- C10 witness: an open list followed by an unclosed `js` fence and two
buffered lines compiles exactly as the open list alone. -/
theorem c10_witness :
    MergeMR.compileLines (["• a"] ++ "```js" :: ["x", "@@ y"]) =
      MergeMR.compileLines ["• a"] ∧
    MergeMR.compileLines ["• a"] = ⟨[Node.bulletList ["a"]]⟩ := by
  refine ⟨c10_unclosed_fence_discarded ["• a"] "```js" ["x", "@@ y"]
    (by decide) (by decide) (by decide), by decide⟩
